import Mathlib

/-!
Shallow embedding of the pearpass-lib-data-import parsers
(src/src/parsers/keepass.js, src/src/parsers/lastPass.js and the
near-duplicate LastPass parser variant), together with theorems that
settle the specification claims about them.

Conventions of the embedding:
* CSV text enters every parser only through the external row reader
  `getRowsFromCsv` (an out-of-scope collaborator per the spec), so the
  parsers are embedded as functions on the reader's output, a
  `List (List String)` of rows; quantifying over rows covers every text.
* JavaScript strings are Lean `String`s; `undefined` string values are
  modelled as `""` (the code only ever observes them through falsiness,
  `|| ''` defaulting, or storage).
* JavaScript exceptions are modelled with `Except String`.
* External collaborators that are not part of the repository
  (`addHttps`, `JSON.parse`, the DOM parser, the kdbxweb loader) are
  modelled explicitly; each such definition carries a comment saying so.
-/

/-! ### JavaScript string primitives -/

/-- Whitespace as trimmed by JavaScript `String.prototype.trim`
(restricted to the ASCII whitespace that occurs in the data). -/
def jsWs (c : Char) : Bool :=
  c = ' ' || c = '\t' || c = '\n' || c = '\r'

/-- JavaScript `s.trim()`. -/
def strTrim (s : String) : String :=
  ⟨((s.data.dropWhile (jsWs ·)).reverse.dropWhile (jsWs ·)).reverse⟩

/-- ASCII lower-casing of one character (the data compared case-insensitively
by the parsers is ASCII). -/
def charLower (c : Char) : Char :=
  if 'A' ≤ c && c ≤ 'Z' then Char.ofNat (c.toNat + 32) else c

/-- JavaScript `s.toLowerCase()` (ASCII fragment). -/
def strLower (s : String) : String :=
  ⟨s.data.map charLower⟩

/-- `pat` occurs as a contiguous sublist of `s` (substring search). -/
def listInfixAux (pat : List Char) : List Char → Bool
  | [] => decide (pat = [])
  | c :: rest => pat.isPrefixOf (c :: rest) || listInfixAux pat rest

/-- JavaScript `s.includes(pat)`. -/
def strContains (s pat : String) : Bool :=
  listInfixAux pat.data s.data

/-- JavaScript `s.startsWith(pat)`. -/
def strStarts (s pat : String) : Bool :=
  pat.data.isPrefixOf s.data

/-- Splitting on the line-ending regex `/\r?\n/` (used by the LastPass
extra-blob extractor): a separator is `"\r\n"` or `"\n"`; a lone `'\r'`
is not a separator. -/
def splitLinesAux : List Char → List Char → List String
  | [], acc => [⟨acc.reverse⟩]
  | '\r' :: '\n' :: rest, acc => ⟨acc.reverse⟩ :: splitLinesAux rest []
  | '\n' :: rest, acc => ⟨acc.reverse⟩ :: splitLinesAux rest []
  | c :: rest, acc => splitLinesAux rest (c :: acc)

def splitLines (s : String) : List String :=
  splitLinesAux s.data []

/-- JavaScript `s.split(sep)` for a one-character separator
(`"".split(sep) = [""]`, empty fields preserved). -/
def splitOnCharAux (sep : Char) : List Char → List Char → List String
  | [], acc => [⟨acc.reverse⟩]
  | c :: rest, acc =>
    if c = sep then ⟨acc.reverse⟩ :: splitOnCharAux sep rest []
    else splitOnCharAux sep rest (c :: acc)

def splitOnChar (sep : Char) (s : String) : List String :=
  splitOnCharAux sep s.data []

/-- Break a string at its first `':'`: `some (before, after)` when a colon
exists (JavaScript `line.indexOf(':')` plus `line.slice(colonIndex + 1)`). -/
def breakAtFirstColonAux : List Char → List Char → Option (String × String)
  | [], _ => none
  | c :: rest, acc =>
    if c = ':' then some (⟨acc.reverse⟩, ⟨rest⟩)
    else breakAtFirstColonAux rest (c :: acc)

def breakAtFirstColon (s : String) : Option (String × String) :=
  breakAtFirstColonAux s.data []

/-- The split performed by `note.split(/:(.+)/)` when the regex matches:
leftmost colon followed by at least one non-line-terminator character;
the captured value runs to the next line terminator.  `none` when the
regex does not match anywhere (the JavaScript split then returns the
whole string unsplit). -/
def splitColonPlusAux : List Char → List Char → Option (String × String)
  | [], _ => none
  | ':' :: d :: rest, acc =>
    if d ≠ '\n' && d ≠ '\r' then
      some (⟨acc.reverse⟩, ⟨(d :: rest).takeWhile (fun c => c ≠ '\n' && c ≠ '\r')⟩)
    else splitColonPlusAux (d :: rest) (':' :: acc)
  | c :: rest, acc => splitColonPlusAux rest (c :: acc)

def splitColonPlus (s : String) : Option (String × String) :=
  splitColonPlusAux s.data []

/-! ### The shared output entry schema

The JavaScript parsers build plain objects whose key sets differ per
entry variant; the embedding uses one record with every field that any
variant carries, defaulting the fields a variant does not mention to
`""` / `[]` (invisible in the source, which simply omits the keys). -/

structure CustomField where
  type : String
  note : String
deriving DecidableEq, Repr

structure EntryData where
  title : String := ""
  username : String := ""
  password : String := ""
  note : String := ""
  websites : List String := []
  customFields : List CustomField := []
  name : String := ""
  number : String := ""
  expireDate : String := ""
  securityCode : String := ""
  pinCode : String := ""
  fullName : String := ""
  email : String := ""
  phoneNumber : String := ""
  address : String := ""
  zip : String := ""
  city : String := ""
  region : String := ""
  country : String := ""
deriving DecidableEq, Repr

structure Entry where
  type : String
  folder : Option String
  isFavorite : Bool
  data : EntryData
deriving DecidableEq, Repr

/-- Modelled from the spec: the external URL-scheme normalization helper
`addHttps` (src/utils/addHttps is not part of the sources): it
scheme-qualifies a URL and yields nothing for an empty input. -/
def addHttps (s : String) : String :=
  if s = "" then ""
  else if strStarts s "http://" || strStarts s "https://" then s
  else "https://" ++ s

/-- The `Object.fromEntries(headers.map((key, i) => [key, row[i]?.trim() ?? '']))`
idiom followed by a key lookup: with duplicate header names the later
entry overwrites the earlier one, a missing key reads as `""`
(`undefined` coerced through `|| ''` / `?? ''`). -/
def jsObjGet (headers row : List String) (key : String) : String :=
  match (headers.enum.filter (fun p => p.2 = key)).getLast? with
  | some (i, _) => strTrim (row.getD i "")
  | none => ""

/-! ## KeePass parsers (src/src/parsers/keepass.js) -/

namespace KeePass

/-- `STANDARD_FIELDS` from keepass.js. -/
def STANDARD_FIELDS : List String :=
  ["Title", "UserName", "Password", "URL", "Notes"]

/-- `TOTP_FIELDS` from keepass.js. -/
def TOTP_FIELDS : List String :=
  ["otp", "TOTP Settings", "TOTP Seed", "TimeOtp-Secret-Base32"]

/-- `row[...]?.replace(/^"|"$/g, '')`: the global regex strips one leading
and one trailing double quote, each when present. -/
def stripQuotes (s : String) : String :=
  let l := if strStarts s "\"" then s.data.drop 1 else s.data
  ⟨match l.getLast? with
    | some '"' => l.dropLast
    | _ => l⟩

/-- `parseKeePass1xCsv` (keepass.js lines 186-207).  The header is matched
by exact cell text (`headerRow.indexOf(name)`); a missing column or cell
reads as `''`. -/
def parseKeePass1xCsv (headerRow : List String) (dataRows : List (List String)) :
    List Entry :=
  let get := fun (row : List String) (name : String) =>
    match headerRow.findIdx? (· = name) with
    | some i => strTrim (stripQuotes (row.getD i ""))
    | none => ""
  dataRows.map fun row =>
    let url := get row "Web Site"
    { type := "login"
      folder := none
      isFavorite := false
      data := {
        title := get row "Account"
        username := get row "Login Name"
        password := get row "Password"
        note := get row "Comments"
        websites := if url = "" then [] else [addHttps url]
        customFields := [] } }

/-- `parseKeePassXCCsv` (keepass.js lines 216-243): headers are trimmed and
lower-cased, rows are turned into an object keyed by header name. -/
def parseKeePassXCCsv (headerRow : List String) (dataRows : List (List String)) :
    List Entry :=
  let headers := headerRow.map (fun h => strLower (strTrim h))
  dataRows.map fun row =>
    let item := fun k => jsObjGet headers row k
    let url := item "url"
    let totp := item "totp"
    { type := "login"
      folder := if item "group" = "" then none else some (item "group")
      isFavorite := false
      data := {
        title := item "title"
        username := item "username"
        password := item "password"
        note := item "notes"
        websites := if url = "" then [] else [addHttps url]
        customFields :=
          if totp = "" then [] else [⟨"note", "TOTP: " ++ totp⟩] } }

/-- `parseKeePassCsv` (keepass.js lines 250-274), taken after the external
`getRowsFromCsv` tokenizer: header-based dialect auto-detection with a
fallback to the KeePassXC mapper. -/
def parseKeePassCsv (rows : List (List String)) : List Entry :=
  match rows with
  | [] => []
  | headerRow :: dataRows =>
    if dataRows = [] then []
    else
      let normalizedHeaders := headerRow.map (fun h => strLower (strTrim h))
      if normalizedHeaders.contains "title" && normalizedHeaders.contains "username" then
        parseKeePassXCCsv headerRow dataRows
      else if normalizedHeaders.contains "account" && normalizedHeaders.contains "login name" then
        parseKeePass1xCsv headerRow dataRows
      else
        parseKeePassXCCsv headerRow dataRows

/-! ### KDBX pipeline

The kdbxweb loader is the external cryptographic database library; the
embedding consumes its outcome: either an in-memory group tree or a
rejection error.  Field values are plain strings or `ProtectedValue`
wrappers. -/

inductive FieldVal where
  | plain (s : String)
  | prot (s : String)
deriving DecidableEq, Repr

/-- `getFieldText` (keepass.js lines 42-46): empty/missing values give `''`,
protected values are resolved with `getText()`. -/
def getFieldText : Option FieldVal → String
  | none => ""
  | some (.plain s) => s
  | some (.prot s) => s

structure KdbxEntry where
  fields : List (String × FieldVal)
deriving DecidableEq, Repr

inductive KdbxGroup where
  | mk (name : String) (entries : List KdbxEntry) (groups : List KdbxGroup)

def KdbxGroup.name : KdbxGroup → String
  | .mk n _ _ => n

def KdbxGroup.entries : KdbxGroup → List KdbxEntry
  | .mk _ es _ => es

def KdbxGroup.groups : KdbxGroup → List KdbxGroup
  | .mk _ _ gs => gs

/-- `fields.get(key)` on the kdbxweb field map (first binding wins; the
source maps have unique keys). -/
def fGet (fields : List (String × FieldVal)) (k : String) : Option FieldVal :=
  (fields.find? (fun p => p.1 = k)).map (·.2)

/-- The entry-extraction block that keepass.js repeats verbatim inside
`walkGroup` (lines 59-95) and inside the root-group loop of
`parseKeePassKdbx` (lines 125-159); `folder` is the already-computed
folder value of the surrounding loop. -/
def kdbxEntryExtract (e : KdbxEntry) (folder : Option String) : Entry :=
  let title := getFieldText (fGet e.fields "Title")
  let username := getFieldText (fGet e.fields "UserName")
  let password := getFieldText (fGet e.fields "Password")
  let url := getFieldText (fGet e.fields "URL")
  let notes := getFieldText (fGet e.fields "Notes")
  let customFields := e.fields.filterMap fun p =>
    if STANDARD_FIELDS.contains p.1 then none
    else
      let text := getFieldText (some p.2)
      if text = "" then none
      else if TOTP_FIELDS.contains p.1 then some ⟨"note", "TOTP: " ++ text⟩
      else some ⟨"note", p.1 ++ ": " ++ text⟩
  { type := "login"
    folder := folder
    isFavorite := false
    data := {
      title := title
      username := username
      password := password
      note := notes
      websites := if url = "" then [] else [addHttps url]
      customFields := customFields } }

mutual

/-- `walkGroup` (keepass.js lines 54-103): depth-first walk accumulating
slash-joined folder paths (`parentPath ? parentPath + '/' + name : name`,
an empty accumulated path becoming a `null` folder). -/
def walkGroup : KdbxGroup → String → List Entry
  | .mk name entries groups, parentPath =>
    let currentPath := if parentPath = "" then name else parentPath ++ "/" ++ name
    entries.map (fun e =>
        kdbxEntryExtract e (if currentPath = "" then none else some currentPath))
      ++ walkGroups groups currentPath

/-- The `for (const subGroup of group.groups) results.push(...walkGroup(subGroup, currentPath))`
loop of `walkGroup`. -/
def walkGroups : List KdbxGroup → String → List Entry
  | [], _ => []
  | g :: rest, path => walkGroup g path ++ walkGroups rest path

end

/-- The kdbxweb rejection value observed by the `catch` block: an optional
error `code` and a message.  kdbxweb's `Consts.ErrorCodes.InvalidKey` is
the string `'InvalidKey'`, so the source's two code comparisons test the
same constant. -/
structure KdbxError where
  code : Option String
  message : String
deriving DecidableEq, Repr

/-- The key-mismatch test of the `catch` block in `parseKeePassKdbx`
(keepass.js lines 167-172). -/
def isKeyMismatch (e : KdbxError) : Bool :=
  e.code == some "InvalidKey"
    || strContains e.message "Invalid key"
    || strContains e.message "invalid key"

/-- Outcome of `kdbxweb.Kdbx.load` (the external library): the decrypted
group tree, or a rejection. -/
inductive KdbxLoadResult where
  | ok (groups : List KdbxGroup)
  | err (e : KdbxError)

/-- `parseKeePassKdbx` (keepass.js lines 110-177), taken after the external
loader: root-group entries get a `null` folder, sub-groups are walked
with an empty parent path (the root group name is not used as a folder
prefix); load failures map to `'Incorrect password'` on a key mismatch
and to the fixed message `'Unsupported or corrupted file'` otherwise. -/
def parseKeePassKdbx : KdbxLoadResult → Except String (List Entry)
  | .err e =>
    .error (if isKeyMismatch e then "Incorrect password" else "Unsupported or corrupted file")
  | .ok groups =>
    match groups with
    | [] => .ok []
    | rootGroup :: _ =>
      .ok (rootGroup.entries.map (fun e => kdbxEntryExtract e none)
        ++ walkGroups rootGroup.groups "")

end KeePass

namespace Xml

/-- A parsed XML element as the DOM exposes it to keepass.js: tag name,
own `textContent`, and child elements in document order.  The external
`DOMParser` produces this tree; its text-level failure branch
(`parsererror`) belongs to that collaborator and is not modelled. -/
inductive XmlNode where
  | mk (tag : String) (text : String) (children : List XmlNode)

def XmlNode.tag : XmlNode → String
  | .mk t _ _ => t

def XmlNode.text : XmlNode → String
  | .mk _ x _ => x

def XmlNode.children : XmlNode → List XmlNode
  | .mk _ _ cs => cs

mutual

/-- Pre-order (document-order) traversal of a node paired with its parent's
tag, as CSS selector matching sees it. -/
def preorderWithParent : Option String → XmlNode → List (Option String × XmlNode)
  | p, .mk tag text children =>
    (p, .mk tag text children) :: preorderChildren tag children

def preorderChildren : String → List XmlNode → List (Option String × XmlNode)
  | _, [] => []
  | tag, c :: rest => preorderWithParent (some tag) c ++ preorderChildren tag rest

end

/-- `doc.querySelector('KeePassFile > Root')`: the first element in document
order whose tag is `Root` and whose parent element's tag is `KeePassFile`. -/
def querySelectorKeePassRoot (doc : XmlNode) : Option XmlNode :=
  ((preorderWithParent none doc).find? fun p =>
    p.1 == some "KeePassFile" && p.2.tag == "Root").map (·.2)

/-- `root.querySelector('Group')`: the first descendant of `root` (document
order, the element itself excluded) whose tag is `Group`. -/
def querySelectorGroup (root : XmlNode) : Option XmlNode :=
  ((preorderChildren root.tag root.children).map (·.2)).find? (fun n => n.tag == "Group")

/-- Insertion into the `fields` object (`fields[key] = value`): assignment
keeps the original position of an existing key, `Object.entries` later
yields insertion order. -/
def upsert (fields : List (String × String)) (k v : String) : List (String × String) :=
  if fields.any (fun p => p.1 = k) then
    fields.map (fun p => if p.1 = k then (k, v) else p)
  else fields ++ [(k, v)]

/-- The `fields` object built from an entry's `<String>` children
(keepass.js lines 296-309 / 379-392): per `<String>`, the first `<Key>`
child keys the first `<Value>` child's text (`|| ''`). -/
def xmlFields (entry : XmlNode) : List (String × String) :=
  (entry.children.filter (fun c => c.tag = "String")).foldl
    (fun fields str =>
      match str.children.find? (fun c => c.tag = "Key") with
      | some keyEl =>
        upsert fields keyEl.text
          (((str.children.find? (fun c => c.tag = "Value")).map (·.text)).getD "")
      | none => fields)
    []

/-- The entry-construction block keepass.js repeats inside `walkXmlGroup`
(lines 295-337) and inside the root-entry loop of `parseKeePassXml`
(lines 378-420). -/
def xmlEntryExtract (entry : XmlNode) (folder : Option String) : Entry :=
  let fields := xmlFields entry
  let fGet := fun k => ((fields.find? (fun p => p.1 = k)).map (·.2)).getD ""
  let url := fGet "URL"
  let customFields := fields.filterMap fun p =>
    if KeePass.STANDARD_FIELDS.contains p.1 then none
    else if p.2 = "" then none
    else if KeePass.TOTP_FIELDS.contains p.1 then some ⟨"note", "TOTP: " ++ p.2⟩
    else some ⟨"note", p.1 ++ ": " ++ p.2⟩
  { type := "login"
    folder := folder
    isFavorite := false
    data := {
      title := fGet "Title"
      username := fGet "UserName"
      password := fGet "Password"
      note := fGet "Notes"
      websites := if url = "" then [] else [addHttps url]
      customFields := customFields } }

mutual

/-- `walkXmlGroup` (keepass.js lines 282-348). -/
def walkXmlGroup : XmlNode → String → List Entry
  | .mk _ _ children, parentPath =>
    let groupName := (((children.find? (fun c => c.tag = "Name")).map (·.text)).getD "")
    let currentPath := if parentPath = "" then groupName else parentPath ++ "/" ++ groupName
    (children.filter (fun c => c.tag = "Entry")).map
        (fun e => xmlEntryExtract e (if currentPath = "" then none else some currentPath))
      ++ walkXmlSubGroups children currentPath

/-- The `for (const subGroup of subGroups)` loop of `walkXmlGroup`; the
source first filters the children for `Group` tags and then iterates,
which this single pass performs at once. -/
def walkXmlSubGroups : List XmlNode → String → List Entry
  | [], _ => []
  | c :: rest, path =>
    (if c.tag = "Group" then walkXmlGroup c path else []) ++ walkXmlSubGroups rest path

end

/-- `parseKeePassXml` (keepass.js lines 354-432), taken after the external
`DOMParser`: no `KeePassFile > Root` element is an error, no root group
yields `[]`, entries directly in the root group get a `null` folder, and
sub-groups are walked with an empty parent path (the root group's name
is not used as a folder prefix). -/
def parseKeePassXml (doc : XmlNode) : Except String (List Entry) :=
  match querySelectorKeePassRoot doc with
  | none => .error "Invalid KeePass XML file"
  | some root =>
    match querySelectorGroup root with
    | none => .ok []
    | some rootGroup =>
      .ok ((rootGroup.children.filter (fun c => c.tag = "Entry")).map
            (fun e => xmlEntryExtract e none)
        ++ walkXmlSubGroups rootGroup.children "")

end Xml

/-! ## Shape lemmas for the KeePass pipelines -/

theorem kdbxEntryExtract_type (e : KeePass.KdbxEntry) (f : Option String) :
    (KeePass.kdbxEntryExtract e f).type = "login" := rfl

theorem kdbxEntryExtract_fav (e : KeePass.KdbxEntry) (f : Option String) :
    (KeePass.kdbxEntryExtract e f).isFavorite = false := rfl

theorem xmlEntryExtract_type (e : Xml.XmlNode) (f : Option String) :
    (Xml.xmlEntryExtract e f).type = "login" := rfl

theorem xmlEntryExtract_fav (e : Xml.XmlNode) (f : Option String) :
    (Xml.xmlEntryExtract e f).isFavorite = false := rfl

mutual

theorem walkGroup_shape (g : KeePass.KdbxGroup) (p : String) :
    ∀ e ∈ KeePass.walkGroup g p, e.type = "login" ∧ e.isFavorite = false := by
  match g with
  | .mk name entries groups =>
    intro e he
    rw [KeePass.walkGroup] at he
    rcases List.mem_append.1 he with h | h
    · rcases List.mem_map.1 h with ⟨a, _, rfl⟩
      exact ⟨rfl, rfl⟩
    · exact walkGroups_shape groups _ e h

theorem walkGroups_shape (gs : List KeePass.KdbxGroup) (p : String) :
    ∀ e ∈ KeePass.walkGroups gs p, e.type = "login" ∧ e.isFavorite = false := by
  match gs with
  | [] => intro e he; rw [KeePass.walkGroups] at he; cases he
  | g :: rest =>
    intro e he
    rw [KeePass.walkGroups] at he
    rcases List.mem_append.1 he with h | h
    · exact walkGroup_shape g p e h
    · exact walkGroups_shape rest p e h

end

mutual

theorem walkXmlGroup_shape (g : Xml.XmlNode) (p : String) :
    ∀ e ∈ Xml.walkXmlGroup g p, e.type = "login" ∧ e.isFavorite = false := by
  match g with
  | .mk tag text children =>
    intro e he
    rw [Xml.walkXmlGroup] at he
    rcases List.mem_append.1 he with h | h
    · rcases List.mem_map.1 h with ⟨a, _, rfl⟩
      exact ⟨rfl, rfl⟩
    · exact walkXmlSubGroups_shape children _ e h

theorem walkXmlSubGroups_shape (cs : List Xml.XmlNode) (p : String) :
    ∀ e ∈ Xml.walkXmlSubGroups cs p, e.type = "login" ∧ e.isFavorite = false := by
  match cs with
  | [] => intro e he; rw [Xml.walkXmlSubGroups] at he; cases he
  | c :: rest =>
    intro e he
    rw [Xml.walkXmlSubGroups] at he
    rcases List.mem_append.1 he with h | h
    · by_cases hc : c.tag = "Group"
      · rw [if_pos hc] at h
        exact walkXmlGroup_shape c p e h
      · rw [if_neg hc] at h
        cases h
    · exact walkXmlSubGroups_shape rest p e h

end

theorem parseKeePass1xCsv_shape (h : List String) (d : List (List String)) :
    ∀ e ∈ KeePass.parseKeePass1xCsv h d, e.type = "login" ∧ e.isFavorite = false := by
  intro e he
  rcases List.mem_map.1 he with ⟨row, _, rfl⟩
  exact ⟨rfl, rfl⟩

theorem parseKeePassXCCsv_shape (h : List String) (d : List (List String)) :
    ∀ e ∈ KeePass.parseKeePassXCCsv h d, e.type = "login" ∧ e.isFavorite = false := by
  intro e he
  rcases List.mem_map.1 he with ⟨row, _, rfl⟩
  exact ⟨rfl, rfl⟩

theorem parseKeePassCsv_shape (rows : List (List String)) :
    ∀ e ∈ KeePass.parseKeePassCsv rows, e.type = "login" ∧ e.isFavorite = false := by
  intro e he
  match rows with
  | [] => cases he
  | headerRow :: dataRows =>
    rw [KeePass.parseKeePassCsv] at he
    by_cases hd : dataRows = []
    · rw [if_pos hd] at he; cases he
    · rw [if_neg hd] at he
      simp only [] at he
      split at he
      · exact parseKeePassXCCsv_shape _ _ e he
      · split at he
        · exact parseKeePass1xCsv_shape _ _ e he
        · exact parseKeePassXCCsv_shape _ _ e he

theorem parseKeePassXml_shape (doc : Xml.XmlNode) (l : List Entry)
    (hok : Xml.parseKeePassXml doc = .ok l) :
    ∀ e ∈ l, e.type = "login" ∧ e.isFavorite = false := by
  intro e he
  rw [Xml.parseKeePassXml] at hok
  split at hok
  · cases hok
  · split at hok
    · cases hok
      cases he
    · cases hok
      rcases List.mem_append.1 he with h | h
      · rcases List.mem_map.1 h with ⟨a, _, rfl⟩
        exact ⟨rfl, rfl⟩
      · exact walkXmlSubGroups_shape _ _ e h

theorem parseKeePassKdbx_shape (r : KeePass.KdbxLoadResult) (l : List Entry)
    (hok : KeePass.parseKeePassKdbx r = .ok l) :
    ∀ e ∈ l, e.type = "login" ∧ e.isFavorite = false := by
  intro e he
  match r with
  | .err err => cases hok
  | .ok groups =>
    match groups with
    | [] =>
      rw [KeePass.parseKeePassKdbx] at hok
      cases hok
      cases he
    | rootGroup :: _ =>
      rw [KeePass.parseKeePassKdbx] at hok
      cases hok
      rcases List.mem_append.1 he with h | h
      · rcases List.mem_map.1 h with ⟨a, _, rfl⟩
        exact ⟨rfl, rfl⟩
      · exact walkGroups_shape _ _ e h

/-! ## Concrete inputs used by the KeePass claims -/

/-- The three-level `Root > Internet > Banking` markup hierarchy of the
spec, with one entry in the innermost group. -/
def c1Doc : Xml.XmlNode :=
  .mk "KeePassFile" ""
    [.mk "Root" ""
      [.mk "Group" ""
        [.mk "Name" "Root" [],
         .mk "Group" ""
           [.mk "Name" "Internet" [],
            .mk "Group" ""
              [.mk "Name" "Banking" [],
               .mk "Entry" ""
                 [.mk "String" "" [.mk "Key" "Title" [], .mk "Value" "My Bank" []]]]]]]]

/-- The same three-level hierarchy as a decrypted KDBX group tree. -/
def c1Db : List KeePass.KdbxGroup :=
  [.mk "Root" []
    [.mk "Internet" []
      [.mk "Banking" [⟨[("Title", .plain "My Bank")]⟩] []]]]

/-- The entry both pipelines actually produce for `c1Doc` / `c1Db`. -/
def c1Entry : Entry :=
  { type := "login"
    folder := some "Internet/Banking"
    isFavorite := false
    data := { title := "My Bank" } }

/-- **C1** (code bug): for the `Root > Internet > Banking` hierarchy with one
entry in the innermost group, both `parseKeePassXml` and
`parseKeePassKdbx` emit the folder `"Internet/Banking"`: the root group
name is dropped (root-level entries even get a `null` folder), whereas
the claim — and the repository's own test suite for these functions —
expect `"Root/Internet/Banking"`, the slash-join of all ancestor names
from the root, root name included.  The recursive walker itself does
build root-inclusive paths when started at the root group (last
conjunct): the slip is in the call sites, which start it at the
sub-groups with an empty parent path. -/
theorem c1_folder_root_name_dropped :
    Xml.parseKeePassXml c1Doc = .ok [c1Entry]
    ∧ KeePass.parseKeePassKdbx (.ok c1Db) = .ok [c1Entry]
    ∧ c1Entry.folder = some "Internet/Banking"
    ∧ c1Entry.folder ≠ some "Root/Internet/Banking"
    ∧ (KeePass.walkGroups c1Db "").map Entry.folder = [some "Root/Internet/Banking"] :=
  ⟨rfl, rfl, rfl, by decide, rfl⟩

/-- **C3** (code bug): a KDBX load failure that is not a key mismatch is
rejected with the fixed message `'Unsupported or corrupted file'`, which
does not contain the underlying error's message (here `'Random error'`,
the very input the repository's test suite uses, expecting
`'Failed to open database: Random error'`). -/
theorem c3_corruption_error_drops_original_message :
    KeePass.parseKeePassKdbx (.err ⟨none, "Random error"⟩)
      = .error "Unsupported or corrupted file"
    ∧ strContains "Unsupported or corrupted file" "Random error" = false :=
  ⟨rfl, by decide⟩

/-- **C5** (confirmed): every KDBX load failure identified as a key mismatch
(error code `InvalidKey`, or a message containing `'Invalid key'` or
`'invalid key'`) is rejected with the authentication message
`'Incorrect password'`, which differs from the generic corruption
message. -/
theorem c5_key_mismatch_gives_incorrect_password (e : KeePass.KdbxError)
    (h : e.code = some "InvalidKey"
      ∨ strContains e.message "Invalid key" = true
      ∨ strContains e.message "invalid key" = true) :
    KeePass.parseKeePassKdbx (.err e) = .error "Incorrect password"
    ∧ ("Incorrect password" : String) ≠ "Unsupported or corrupted file" := by
  have hkey : KeePass.isKeyMismatch e = true := by
    rw [KeePass.isKeyMismatch]
    rcases h with h | h | h
    · simp [h]
    · simp [h]
    · simp [h]
  refine ⟨?_, by decide⟩
  rw [KeePass.parseKeePassKdbx, hkey]
  rfl

/-- Witness for C5 at a concrete kdbxweb-style rejection. -/
theorem c5_witness :
    KeePass.parseKeePassKdbx (.err ⟨some "InvalidKey", "Invalid key"⟩)
      = .error "Incorrect password"
    ∧ ("Incorrect password" : String) ≠ "Unsupported or corrupted file" :=
  c5_key_mismatch_gives_incorrect_password ⟨some "InvalidKey", "Invalid key"⟩
    (Or.inl rfl)

/-- **C8** (confirmed): KeePass CSV dialect auto-detection.  A header whose
trimmed lower-cased names include both `title` and `username` selects
the KeePassXC mapper; otherwise a header including both `account` and
`login name` selects the legacy KeePass 1.x mapper; any other header
falls back to the KeePassXC mapper (the parser is total, so no error is
raised).  The zero-data-row early return agrees with both mappers, which
map an empty row list to `[]`. -/
theorem c8_csv_dialect_detection (headerRow : List String)
    (dataRows : List (List String)) :
    ((headerRow.map (fun h => strLower (strTrim h))).contains "title" = true
        ∧ (headerRow.map (fun h => strLower (strTrim h))).contains "username" = true →
      KeePass.parseKeePassCsv (headerRow :: dataRows)
        = KeePass.parseKeePassXCCsv headerRow dataRows)
    ∧ (¬((headerRow.map (fun h => strLower (strTrim h))).contains "title" = true
          ∧ (headerRow.map (fun h => strLower (strTrim h))).contains "username" = true)
        ∧ (headerRow.map (fun h => strLower (strTrim h))).contains "account" = true
        ∧ (headerRow.map (fun h => strLower (strTrim h))).contains "login name" = true →
      KeePass.parseKeePassCsv (headerRow :: dataRows)
        = KeePass.parseKeePass1xCsv headerRow dataRows)
    ∧ (¬((headerRow.map (fun h => strLower (strTrim h))).contains "title" = true
          ∧ (headerRow.map (fun h => strLower (strTrim h))).contains "username" = true)
        ∧ ¬((headerRow.map (fun h => strLower (strTrim h))).contains "account" = true
          ∧ (headerRow.map (fun h => strLower (strTrim h))).contains "login name" = true) →
      KeePass.parseKeePassCsv (headerRow :: dataRows)
        = KeePass.parseKeePassXCCsv headerRow dataRows) := by
  by_cases hd : dataRows = []
  · subst hd
    refine ⟨fun _ => ?_, fun _ => ?_, fun _ => ?_⟩ <;>
      simp [KeePass.parseKeePassCsv, KeePass.parseKeePassXCCsv, KeePass.parseKeePass1xCsv]
  · rw [KeePass.parseKeePassCsv, if_neg hd]
    simp only []
    refine ⟨fun h => ?_, fun h => ?_, fun h => ?_⟩
    · rw [if_pos (by rw [h.1, h.2]; rfl)]
    · rw [if_neg ?_, if_pos ?_]
      · rw [h.2.1, h.2.2]; rfl
      · intro hb
        rw [Bool.and_eq_true] at hb
        exact h.1 hb
    · rw [if_neg ?_, if_neg ?_]
      · intro hb
        rw [Bool.and_eq_true] at hb
        exact h.2 hb
      · intro hb
        rw [Bool.and_eq_true] at hb
        exact h.1 hb

/-- Witness for C8: the legacy header of the spec selects the 1.x mapper. -/
theorem c8_witness :
    KeePass.parseKeePassCsv
        ([["Account", "Login Name", "Password", "Web Site", "Comments"],
          ["My Bank", "user@example.com", "s3cret", "bank.com", "Banking login"]])
      = KeePass.parseKeePass1xCsv
          ["Account", "Login Name", "Password", "Web Site", "Comments"]
          [["My Bank", "user@example.com", "s3cret", "bank.com", "Banking login"]] :=
  (c8_csv_dialect_detection _ _).2.1 (by refine ⟨by decide, by decide, by decide⟩)

/-- **C10** (confirmed): every entry emitted by the KeePass pipelines — both
CSV dialect mappers and their auto-detecting wrapper, the XML tree walk,
and the KDBX tree walk — has `type = 'login'` and `isFavorite = false`. -/
theorem c10_keepass_entries_all_login_never_favorite :
    (∀ rows e, e ∈ KeePass.parseKeePassCsv rows →
      e.type = "login" ∧ e.isFavorite = false)
    ∧ (∀ h d e, e ∈ KeePass.parseKeePass1xCsv h d →
      e.type = "login" ∧ e.isFavorite = false)
    ∧ (∀ h d e, e ∈ KeePass.parseKeePassXCCsv h d →
      e.type = "login" ∧ e.isFavorite = false)
    ∧ (∀ doc l e, Xml.parseKeePassXml doc = .ok l → e ∈ l →
      e.type = "login" ∧ e.isFavorite = false)
    ∧ (∀ r l e, KeePass.parseKeePassKdbx r = .ok l → e ∈ l →
      e.type = "login" ∧ e.isFavorite = false) :=
  ⟨fun rows e he => parseKeePassCsv_shape rows e he,
   fun h d e he => parseKeePass1xCsv_shape h d e he,
   fun h d e he => parseKeePassXCCsv_shape h d e he,
   fun doc l e hok he => parseKeePassXml_shape doc l hok e he,
   fun r l e hok he => parseKeePassKdbx_shape r l hok e he⟩

/-- Witness for C10 at a concrete KeePassXC-style CSV input. -/
theorem c10_witness :
    ((KeePass.parseKeePassCsv [["Group", "Title", "Username"], ["G", "T", "U"]]).headD
        ⟨"", none, true, {}⟩).type = "login"
    ∧ ((KeePass.parseKeePassCsv [["Group", "Title", "Username"], ["G", "T", "U"]]).headD
        ⟨"", none, true, {}⟩).isFavorite = false :=
  c10_keepass_entries_all_login_never_favorite.1
    [["Group", "Title", "Username"], ["G", "T", "U"]] _ (by decide)

/-! ## A model of the JavaScript `JSON.parse` builtin

`JSON.parse` is an external builtin (like the DOM parser).  The model
implements the JSON grammar restricted to the shapes the parsers
consume: numbers are integers without a leading zero, an exponent, a
fraction or a negative zero, and strings contain no escape sequences;
anything outside this fragment fails to parse (in the parsers below a
failed parse only ever triggers the catch/pass-through path). -/

inductive JsVal where
  | null
  | bool (b : Bool)
  | num (i : Int)
  | str (s : String)
  | arr (elems : List JsVal)
  | obj (members : List (String × JsVal))

/-- JSON insignificant whitespace (the same ASCII set as `jsWs`). -/
def skipWs (cs : List Char) : List Char :=
  cs.dropWhile (jsWs ·)

/-- An unsigned JSON integer literal (no leading zero unless `0` itself). -/
def parseJsonNat (cs : List Char) : Option (Nat × List Char) :=
  let digits := cs.takeWhile (·.isDigit)
  if digits = [] then none
  else if digits.head? = some '0' && digits.length != 1 then none
  else some (digits.foldl (fun n c => n * 10 + (c.toNat - 48)) 0, cs.drop digits.length)

/-- A JSON string body after the opening quote (escape-free fragment). -/
def parseJsonStringBody (cs : List Char) : Option (String × List Char) :=
  let body := cs.takeWhile (fun c => c ≠ '"' && c ≠ '\\')
  match cs.drop body.length with
  | '"' :: rest => some (⟨body⟩, rest)
  | _ => none

mutual

def parseJsonVal : Nat → List Char → Option (JsVal × List Char)
  | 0, _ => none
  | fuel + 1, cs =>
    match skipWs cs with
    | 'n' :: 'u' :: 'l' :: 'l' :: rest => some (.null, rest)
    | 't' :: 'r' :: 'u' :: 'e' :: rest => some (.bool true, rest)
    | 'f' :: 'a' :: 'l' :: 's' :: 'e' :: rest => some (.bool false, rest)
    | '"' :: rest => (parseJsonStringBody rest).map (fun p => (.str p.1, p.2))
    | '[' :: rest =>
      (match skipWs rest with
       | ']' :: rest2 => some (.arr [], rest2)
       | _ => parseJsonArrItems fuel rest [])
    | '\x7b' :: rest =>
      (match skipWs rest with
       | '\x7d' :: rest2 => some (.obj [], rest2)
       | _ => parseJsonObjItems fuel rest [])
    | '-' :: rest =>
      (parseJsonNat rest).bind fun p =>
        if p.1 = 0 then none else some (.num (-(p.1 : Int)), p.2)
    | c :: rest =>
      if c.isDigit then (parseJsonNat (c :: rest)).map (fun p => (.num (p.1 : Int), p.2))
      else none
    | [] => none

def parseJsonArrItems : Nat → List Char → List JsVal → Option (JsVal × List Char)
  | 0, _, _ => none
  | fuel + 1, cs, acc =>
    match parseJsonVal fuel cs with
    | none => none
    | some (v, rest) =>
      match skipWs rest with
      | ',' :: rest2 => parseJsonArrItems fuel rest2 (v :: acc)
      | ']' :: rest2 => some (.arr (v :: acc).reverse, rest2)
      | _ => none

def parseJsonObjItems : Nat → List Char → List (String × JsVal) → Option (JsVal × List Char)
  | 0, _, _ => none
  | fuel + 1, cs, acc =>
    match skipWs cs with
    | '"' :: rest =>
      (match parseJsonStringBody rest with
       | none => none
       | some (k, rest2) =>
         match skipWs rest2 with
         | ':' :: rest3 =>
           (match parseJsonVal fuel rest3 with
            | none => none
            | some (v, rest4) =>
              match skipWs rest4 with
              | ',' :: rest5 => parseJsonObjItems fuel rest5 ((k, v) :: acc)
              | '\x7d' :: rest5 => some (.obj ((k, v) :: acc).reverse, rest5)
              | _ => none)
         | _ => none)
    | _ => none

end

/-- `JSON.parse(s)`: parse one value, requiring the rest to be whitespace. -/
def jsonParse (s : String) : Option JsVal :=
  match parseJsonVal (s.data.length + 1) s.data with
  | some (v, rest) => if skipWs rest = [] then some v else none
  | none => none

/-- Object member lookup after `JSON.parse`: with duplicate keys the later
member wins, a missing key is `undefined` (`none`). -/
def jsLookup (members : List (String × JsVal)) (k : String) : Option JsVal :=
  ((members.filter (fun p => p.1 = k)).getLast?).map (·.2)

/-- The member access `v.k` on a non-`null` parsed value: objects look the
key up, every other value yields `undefined` (`none`).  (`null` is
excluded: accessing a member of `null` throws.) -/
def jsMemberGet (v : JsVal) (k : String) : Option JsVal :=
  match v with
  | .obj m => jsLookup m k
  | _ => none

/-- JavaScript truthiness of a parsed JSON value. -/
def jsTruthy : JsVal → Bool
  | .null => false
  | .bool b => b
  | .num i => i != 0
  | .str s => s != ""
  | .arr _ => true
  | .obj _ => true

/-- Truthiness of a possibly-`undefined` value. -/
def jsTruthyOpt : Option JsVal → Bool
  | none => false
  | some v => jsTruthy v

mutual

/-- Template-literal stringification of a parsed JSON value. -/
def jsDisplayVal : JsVal → String
  | .null => "null"
  | .bool b => cond b "true" "false"
  | .num i => toString i
  | .str s => s
  | .arr xs => jsDisplayItems xs
  | .obj _ => "[object Object]"

/-- `Array.prototype.toString`: elements joined with `','`, `null`
rendering as the empty string. -/
def jsDisplayItems : List JsVal → String
  | [] => ""
  | [v] => (match v with | .null => "" | w => jsDisplayVal w)
  | v :: rest =>
    (match v with | .null => "" | w => jsDisplayVal w) ++ "," ++ jsDisplayItems rest

end

/-- Stringification of a possibly-`undefined` value (as a template literal
renders it). -/
def jsDisplayOpt : Option JsVal → String
  | none => "undefined"
  | some v => jsDisplayVal v

/-! ## LastPass parser (src/src/parsers/lastPass.js) -/

namespace LastPass

/-- `get` (lastPass.js line 15): `row[headerRow.indexOf(name)]?.trim()`;
a missing column or cell reads as `""` (`undefined` is only observed
through falsiness or `|| ''`). -/
def getCell (row : List String) (name : String) (headerRow : List String) : String :=
  match headerRow.findIdx? (· = name) with
  | some i => strTrim (row.getD i "")
  | none => ""

/-- `getField` (lastPass.js lines 22-25): the regex `` `${label}:(.*)` ``
matches at the first occurrence of `label:` anywhere in the blob and
captures to the next line terminator; the capture is trimmed, a missing
match gives `''`. -/
def getFieldAux (pat : List Char) : List Char → Option (List Char)
  | [] => none
  | c :: rest =>
    if pat.isPrefixOf (c :: rest) then some ((c :: rest).drop pat.length)
    else getFieldAux pat rest

def getField (extra label : String) : String :=
  match getFieldAux (label ++ ":").data extra.data with
  | some rest => strTrim ⟨rest.takeWhile (fun c => c ≠ '\n' && c ≠ '\r')⟩
  | none => ""

/-- `normalizePhone` (lastPass.js lines 31-40): `JSON.parse` the value; on
a parse failure (or `null`, whose member access throws) return the value
unchanged; otherwise compose `'+' + num + ext` when both members are
truthy and `'+' + num` otherwise (an absent `num` stringifies to
`"undefined"`). -/
def normalizePhone (value : String) : String :=
  match jsonParse value with
  | none => value
  | some .null => value
  | some parsed =>
    let num := jsMemberGet parsed "num"
    let ext := jsMemberGet parsed "ext"
    if jsTruthyOpt num && jsTruthyOpt ext then
      "+" ++ jsDisplayOpt num ++ jsDisplayOpt ext
    else
      "+" ++ jsDisplayOpt num

/-- The twelve month names of `normalizeExpiry`. -/
def monthNames : List String :=
  ["january", "february", "march", "april", "may", "june",
   "july", "august", "september", "october", "november", "december"]

/-- `(monthIndex + 1).toString().padStart(2, '0')`. -/
def padStart2 (s : String) : String :=
  if s.length = 1 then "0" ++ s else s

/-- `parts[1].slice(-2)`. -/
def sliceLastTwo (s : String) : String :=
  ⟨s.data.drop (s.data.length - 2)⟩

/-- `normalizeExpiry` (lastPass.js lines 46-71): a two-part `Month, Year`
value with a recognized month name becomes `MM/YY`; anything else passes
through unchanged. -/
def normalizeExpiry (value : String) : String :=
  match splitOnChar ',' value with
  | [p0, p1] =>
    match monthNames.findIdx? (· = strLower (strTrim p0)) with
    | some monthIndex => padStart2 (toString (monthIndex + 1)) ++ "/" ++ sliceLastTwo p1
    | none => value
  | _ => value

/-- `PHONE_FIELD_REGEX` (lastPass.js line 7): `/^(Phone|Fax|Evening Phone):/`. -/
def phoneFieldTest (note : String) : Bool :=
  strStarts note "Phone:" || strStarts note "Fax:" || strStarts note "Evening Phone:"

/-- The dedup key of a kept line in `toCustomFields`: text after the first
colon, trimmed, or the whole line when it has no colon. -/
def lineValue (line : String) : String :=
  match breakAtFirstColon line with
  | some (_, after) => strTrim after
  | none => line

/-- The second `.map` of `toCustomFields` (lastPass.js lines 94-101):
phone-labelled lines re-normalize their value via `normalizePhone`.
When `note.split(/:(.+)/)` does not split (nothing after the colon) the
destructured value is `undefined`, and the template renders
`label + ':' + 'undefined'` (unreachable here: such lines have an empty
`lineValue` and were already dropped). -/
def formatLine (note : String) : CustomField :=
  if phoneFieldTest note then
    match splitColonPlus note with
    | some (label, value) => ⟨"note", label ++ ":" ++ normalizePhone value⟩
    | none => ⟨"note", note ++ ":undefined"⟩
  else ⟨"note", note⟩

/-- The line selection of `toCustomFields` (lastPass.js lines 80-93): split
the blob on line endings, trim, drop empty and `NoteType:` lines, drop
lines whose (post-colon) value is empty or already recorded as used. -/
def keptLines (extraText : String) (usedNotes : List String) : List String :=
  (splitLines extraText).filterMap fun rawLine =>
    let line := strTrim rawLine
    if line = "" || strStarts line "NoteType:" then none
    else
      let value := lineValue line
      if value = "" then none
      else if usedNotes.contains value then none
      else some line

/-- `toCustomFields` (lastPass.js lines 78-102). -/
def toCustomFields (extraText : String) (usedNotes : List String) : List CustomField :=
  if strTrim extraText = "" then []
  else (keptLines extraText usedNotes).map formatLine

/-- `toWebsites` (lastPass.js lines 108-109). -/
def toWebsites (urlString : String) : List String :=
  if urlString = "" then []
  else (splitOnChar ',' urlString).map (fun site => addHttps (strTrim site))

/-- `NOTE_TYPE_CREDIT_CARD` (line 4): case-insensitive substring test. -/
def noteTypeCreditCard (extra : String) : Bool :=
  strContains (strLower extra) "notetype:credit card"

/-- `NOTE_TYPE_ADDRESS_OR_IDENTITY` (line 5). -/
def noteTypeAddressOrIdentity (extra : String) : Bool :=
  strContains (strLower extra) "notetype:address"
    || strContains (strLower extra) "notetype:identity"

/-- `NOTE_TYPE_WIFI_PASSWORD` (line 6). -/
def noteTypeWifiPassword (extra : String) : Bool :=
  strContains (strLower extra) "notetype:wi-fi password"

/-- `[...].filter(Boolean)`. -/
def nonempties (l : List String) : List String :=
  l.filter (· ≠ "")

/-- The contents of the per-row `usedNotes` set at the moment
`toCustomFields` is called, per branch of `parseLastPassCsv`
(the branches add exactly these values; a `Set` only ever queried
through `has` is a list queried through `contains`).  The `note` and
`login` branches seed the same set — the whole non-empty blob — so the
set does not depend on the password. -/
def usedNotesFor (extra : String) : List String :=
  if noteTypeCreditCard extra then
    nonempties [getField extra "Name on Card", getField extra "Number",
      getField extra "Expiration Date", getField extra "Security Code",
      getField extra "Notes"]
  else if noteTypeAddressOrIdentity extra then
    nonempties [getField extra "First Name", getField extra "Middle Name",
      getField extra "Last Name", getField extra "Username",
      getField extra "Email Address", getField extra "Mobile Phone",
      getField extra "Address 1", getField extra "Address 2",
      getField extra "Address 3", getField extra "Zip / Postal Code",
      getField extra "City / Town", getField extra "State",
      getField extra "Country", getField extra "Notes"]
  else if noteTypeWifiPassword extra then
    nonempties [getField extra "SSID", getField extra "Password",
      getField extra "Notes"]
  else if extra ≠ "" then [extra]
  else []

/-- The body of the `for (const row of dataRows)` loop of
`parseLastPassCsv` (lastPass.js lines 122-274). -/
def rowToEntry (headerRow row : List String) : Entry :=
  let url := getCell row "url" headerRow
  let username := getCell row "username" headerRow
  let password := getCell row "password" headerRow
  let extra := getCell row "extra" headerRow
  let name := getCell row "name" headerRow
  let folder := if getCell row "grouping" headerRow = "" then none
    else some (getCell row "grouping" headerRow)
  let isFavorite := getCell row "fav" headerRow = "1"
  let websites := toWebsites url
  if noteTypeCreditCard extra then
    let note := getField extra "Notes"
    let ccName := getField extra "Name on Card"
    let number := getField extra "Number"
    let expireDate := getField extra "Expiration Date"
    let securityCode := getField extra "Security Code"
    { type := "creditCard"
      folder := folder
      isFavorite := isFavorite
      data := {
        title := ccName
        name := ccName
        number := number
        expireDate := normalizeExpiry expireDate
        securityCode := securityCode
        pinCode := ""
        note := note
        customFields := toCustomFields extra (usedNotesFor extra) } }
  else if noteTypeAddressOrIdentity extra then
    let note := getField extra "Notes"
    let firstName := getField extra "First Name"
    let middleName := getField extra "Middle Name"
    let lastName := getField extra "Last Name"
    { type := "identity"
      folder := folder
      isFavorite := isFavorite
      data := {
        title := name
        fullName := String.intercalate " " (nonempties [firstName, middleName, lastName])
        username := getField extra "Username"
        email := getField extra "Email Address"
        phoneNumber := normalizePhone (getField extra "Mobile Phone")
        address := String.intercalate ", " (nonempties [getField extra "Address 1",
          getField extra "Address 2", getField extra "Address 3"])
        zip := getField extra "Zip / Postal Code"
        city := getField extra "City / Town"
        region := getField extra "State"
        country := getField extra "Country"
        note := note
        customFields := toCustomFields extra (usedNotesFor extra) } }
  else if noteTypeWifiPassword extra then
    { type := "wifiPassword"
      folder := folder
      isFavorite := isFavorite
      data := {
        title := getField extra "SSID"
        password := getField extra "Password"
        note := getField extra "Notes"
        customFields := toCustomFields extra (usedNotesFor extra) } }
  else if password = "" && extra ≠ "" then
    { type := "note"
      folder := folder
      isFavorite := isFavorite
      data := {
        title := name
        note := extra
        customFields := toCustomFields extra (usedNotesFor extra) } }
  else
    { type := "login"
      folder := folder
      isFavorite := isFavorite
      data := {
        title := name
        username := username
        password := password
        note := extra
        websites := websites
        customFields := toCustomFields extra (usedNotesFor extra) } }

/-- `parseLastPassCsv` (lastPass.js lines 116-278), taken after the external
row reader. -/
def parseLastPassCsv : List (List String) → List Entry
  | [] => []
  | headerRow :: dataRows => dataRows.map (rowToEntry headerRow)

/-- The values an entry surfaces through its structured (non-customFields)
data fields, per variant — the value set claim C2 quantifies over. -/
def structuredFieldValues (e : Entry) : List String :=
  if e.type = "login" then
    [e.data.title, e.data.username, e.data.password, e.data.note] ++ e.data.websites
  else if e.type = "creditCard" then
    [e.data.title, e.data.name, e.data.number, e.data.expireDate,
     e.data.securityCode, e.data.pinCode, e.data.note]
  else if e.type = "identity" then
    [e.data.title, e.data.fullName, e.data.username, e.data.email,
     e.data.phoneNumber, e.data.address, e.data.zip, e.data.city,
     e.data.region, e.data.country, e.data.note]
  else if e.type = "wifiPassword" then
    [e.data.title, e.data.password, e.data.note]
  else
    [e.data.title, e.data.note]

/-- The value of a custom field in the sense of claim C2: the text after
the first colon of its line, or the whole line. -/
def cfValue (cf : CustomField) : String :=
  lineValue cf.note

end LastPass

/-! ## Claims about the LastPass parser -/

theorem rowToEntry_customFields (headerRow row : List String) :
    (LastPass.rowToEntry headerRow row).data.customFields
      = LastPass.toCustomFields (LastPass.getCell row "extra" headerRow)
          (LastPass.usedNotesFor (LastPass.getCell row "extra" headerRow)) := by
  rw [LastPass.rowToEntry]
  simp only []
  split
  · rfl
  · split
    · rfl
    · split
      · rfl
      · split <;> rfl

theorem toCustomFields_mem (extra : String) (used : List String) (cf : CustomField)
    (h : cf ∈ LastPass.toCustomFields extra used) :
    ∃ line, cf = LastPass.formatLine line ∧ LastPass.lineValue line ∉ used := by
  rw [LastPass.toCustomFields] at h
  split at h
  · cases h
  · rcases List.mem_map.1 h with ⟨line, hline, rfl⟩
    refine ⟨line, rfl, ?_⟩
    rw [LastPass.keptLines] at hline
    rcases List.mem_filterMap.1 hline with ⟨raw, _, hsome⟩
    simp only [] at hsome
    split at hsome
    · cases hsome
    · split at hsome
      · cases hsome
      · split at hsome
        · cases hsome
        · rename_i hcont
          cases hsome
          intro hmem
          exact hcont (List.elem_eq_true_of_mem hmem)

/-- The concrete row behind the C2 counterexample: a login row whose
username also appears as the value of an extra-blob line. -/
def c2Entry : Entry :=
  LastPass.rowToEntry ["url", "username", "password", "extra", "name", "grouping", "fav"]
    ["", "alice", "x", "Login:alice", "T", "", ""]

/-- **C2** counterexample: the claim as stated is false.  For this LastPass
row the produced login entry carries the custom field `Login:alice`,
whose value `alice` is exactly the entry's structured `username` —
deduplication only consults the values extracted from the extra blob
itself, never the column-derived structured fields. -/
theorem c2_counterexample :
    LastPass.parseLastPassCsv
        [["url", "username", "password", "extra", "name", "grouping", "fav"],
         ["", "alice", "x", "Login:alice", "T", "", ""]]
      = [c2Entry]
    ∧ (⟨"note", "Login:alice"⟩ : CustomField) ∈ c2Entry.data.customFields
    ∧ LastPass.cfValue ⟨"note", "Login:alice"⟩ = c2Entry.data.username
    ∧ LastPass.cfValue ⟨"note", "Login:alice"⟩
        ∈ LastPass.structuredFieldValues c2Entry := by
  refine ⟨rfl, by decide, by decide, by decide⟩

/-- **C2** (amended): every custom field of an entry produced by
`parseLastPassCsv` comes from a line of the row's extra blob whose value
(text after the first colon, or the whole line) is none of the values
the parser seeded into the per-row used set — the raw blob-extracted
structured values of that branch (`usedNotesFor`).  Deduplication is by
these raw pre-normalization blob values only; values surfaced from CSV
columns or post-normalization values are not covered. -/
theorem c2_amended_dedup_by_raw_blob_values (headerRow : List String)
    (dataRows : List (List String)) (row : List String) (hrow : row ∈ dataRows) :
    LastPass.rowToEntry headerRow row ∈ LastPass.parseLastPassCsv (headerRow :: dataRows)
    ∧ ∀ cf ∈ (LastPass.rowToEntry headerRow row).data.customFields,
        ∃ line, cf = LastPass.formatLine line
          ∧ LastPass.lineValue line
              ∉ LastPass.usedNotesFor (LastPass.getCell row "extra" headerRow) := by
  constructor
  · rw [LastPass.parseLastPassCsv]
    exact List.mem_map_of_mem _ hrow
  · intro cf hcf
    rw [rowToEntry_customFields] at hcf
    exact toCustomFields_mem _ _ cf hcf

/-- Witness for the amended C2 at a concrete credit-card row. -/
theorem c2_amended_witness :
    LastPass.rowToEntry ["extra"] ["NoteType:Credit Card\nNumber:4111\nColor:red"]
      ∈ LastPass.parseLastPassCsv
          [["extra"], ["NoteType:Credit Card\nNumber:4111\nColor:red"]]
    ∧ ∀ cf ∈ (LastPass.rowToEntry ["extra"]
        ["NoteType:Credit Card\nNumber:4111\nColor:red"]).data.customFields,
        ∃ line, cf = LastPass.formatLine line
          ∧ LastPass.lineValue line
              ∉ LastPass.usedNotesFor
                  (LastPass.getCell ["NoteType:Credit Card\nNumber:4111\nColor:red"]
                    "extra" ["extra"]) :=
  c2_amended_dedup_by_raw_blob_values ["extra"] _ _ (by decide)

/-- **C4** counterexample: a marker-free row whose password cell AND extra
blob are both empty is routed to the `login` variant, not to `note` (the
`note` branch requires a non-empty extra blob). -/
theorem c4_counterexample :
    LastPass.parseLastPassCsv [["password", "extra", "name"], ["", "", "X"]]
      = [LastPass.rowToEntry ["password", "extra", "name"] ["", "", "X"]]
    ∧ LastPass.getCell ["", "", "X"] "password" ["password", "extra", "name"] = ""
    ∧ (LastPass.rowToEntry ["password", "extra", "name"] ["", "", "X"]).type = "login"
    ∧ ("login" : String) ≠ "note" :=
  ⟨rfl, rfl, rfl, by decide⟩

/-- **C4** (amended): for a data row whose extra blob carries no record-type
marker, an empty password cell routes to `note` only when the extra blob
is non-empty; a non-empty password always routes to `login`; an empty
password with an empty extra blob also routes to `login`. -/
theorem c4_amended_note_login_routing (headerRow : List String)
    (dataRows : List (List String)) (row : List String) (hrow : row ∈ dataRows)
    (h1 : LastPass.noteTypeCreditCard (LastPass.getCell row "extra" headerRow) = false)
    (h2 : LastPass.noteTypeAddressOrIdentity (LastPass.getCell row "extra" headerRow) = false)
    (h3 : LastPass.noteTypeWifiPassword (LastPass.getCell row "extra" headerRow) = false) :
    LastPass.rowToEntry headerRow row ∈ LastPass.parseLastPassCsv (headerRow :: dataRows)
    ∧ (LastPass.getCell row "password" headerRow = ""
        ∧ LastPass.getCell row "extra" headerRow ≠ "" →
        (LastPass.rowToEntry headerRow row).type = "note")
    ∧ (LastPass.getCell row "password" headerRow ≠ "" →
        (LastPass.rowToEntry headerRow row).type = "login")
    ∧ (LastPass.getCell row "password" headerRow = ""
        ∧ LastPass.getCell row "extra" headerRow = "" →
        (LastPass.rowToEntry headerRow row).type = "login") := by
  refine ⟨?_, ?_, ?_, ?_⟩
  · rw [LastPass.parseLastPassCsv]
    exact List.mem_map_of_mem _ hrow
  · intro hs
    rw [LastPass.rowToEntry]
    simp [h1, h2, h3, hs.1, hs.2]
  · intro hs
    rw [LastPass.rowToEntry]
    simp [h1, h2, h3, hs]
  · intro hs
    rw [LastPass.rowToEntry, hs.1, hs.2]
    rfl

/-- Witness for the amended C4: an empty-password row with a non-empty
marker-free blob produces a `note` entry. -/
theorem c4_amended_witness :
    (LastPass.rowToEntry ["password", "extra"] ["", "just a memo"]).type = "note" :=
  (c4_amended_note_login_routing ["password", "extra"] [["", "just a memo"]]
    ["", "just a memo"] (by decide) (by decide) (by decide) (by decide)).2.1
    ⟨rfl, by decide⟩

/-- **C7** counterexample: the input `"5"` parses as JSON (to the number 5)
but is not a structured phone value, and `normalizePhone` returns
`"+undefined"` for it rather than the input unchanged. -/
theorem c7_counterexample :
    LastPass.normalizePhone "5" = "+undefined"
    ∧ jsonParse "5" = some (JsVal.num 5)
    ∧ ("+undefined" : String) ≠ "5" :=
  ⟨rfl, rfl, by decide⟩

/-- **C7** (amended): `normalizePhone` is total (never throws).  A value
parsing to an object with truthy `num` and `ext` members composes
`'+' + num + ext`; one with a truthy `num` and no truthy `ext` composes
`'+' + num`; a value that fails to parse as JSON — or parses to `null`,
whose member access throws into the catch — is returned unchanged; any
other successfully-parsed value yields `'+'` followed by the
stringification of its (missing or falsy) `num` member, e.g.
`"+undefined"`. -/
theorem c7_amended_normalize_phone :
    (∀ s, jsonParse s = none → LastPass.normalizePhone s = s)
    ∧ (∀ s, jsonParse s = some JsVal.null → LastPass.normalizePhone s = s)
    ∧ (∀ s m n e, jsonParse s = some (JsVal.obj m) → jsLookup m "num" = some n →
        jsLookup m "ext" = some e → jsTruthy n = true → jsTruthy e = true →
        LastPass.normalizePhone s = "+" ++ jsDisplayVal n ++ jsDisplayVal e)
    ∧ (∀ s m n, jsonParse s = some (JsVal.obj m) → jsLookup m "num" = some n →
        jsTruthy n = true → jsTruthyOpt (jsLookup m "ext") = false →
        LastPass.normalizePhone s = "+" ++ jsDisplayVal n)
    ∧ (∀ s v, jsonParse s = some v → v ≠ JsVal.null →
        jsTruthyOpt (jsMemberGet v "num") = false →
        LastPass.normalizePhone s = "+" ++ jsDisplayOpt (jsMemberGet v "num")) := by
  refine ⟨?_, ?_, ?_, ?_, ?_⟩
  · intro s hp
    rw [LastPass.normalizePhone, hp]
  · intro s hp
    rw [LastPass.normalizePhone, hp]
  · intro s m n e hp hn he htn hte
    rw [LastPass.normalizePhone, hp]
    simp only [jsMemberGet, hn, he, jsTruthyOpt, htn, hte]
    rfl
  · intro s m n hp hn htn hte
    rw [LastPass.normalizePhone, hp]
    simp only [jsMemberGet]
    rw [hn, hte]
    simp [jsTruthyOpt, htn, jsDisplayOpt]
  · intro s v hp hv htn
    cases v with
    | null => exact absurd rfl hv
    | bool b =>
      rw [LastPass.normalizePhone, hp]
      simp [jsMemberGet, jsTruthyOpt, jsDisplayOpt]
    | num i =>
      rw [LastPass.normalizePhone, hp]
      simp [jsMemberGet, jsTruthyOpt, jsDisplayOpt]
    | str t =>
      rw [LastPass.normalizePhone, hp]
      simp [jsMemberGet, jsTruthyOpt, jsDisplayOpt]
    | arr xs =>
      rw [LastPass.normalizePhone, hp]
      simp [jsMemberGet, jsTruthyOpt, jsDisplayOpt]
    | obj mm =>
      rw [LastPass.normalizePhone, hp]
      simp only [jsMemberGet] at htn ⊢
      simp [htn]

/-- Witness for the amended C7: a structured two-member phone value. -/
theorem c7_amended_witness :
    LastPass.normalizePhone "\x7b\"num\":\"123\",\"ext\":\"45\"\x7d" = "+12345" :=
  c7_amended_normalize_phone.2.2.1 "\x7b\"num\":\"123\",\"ext\":\"45\"\x7d"
    [("num", JsVal.str "123"), ("ext", JsVal.str "45")]
    (JsVal.str "123") (JsVal.str "45") rfl rfl rfl rfl rfl

/-! ## The near-duplicate LastPass parser variant (src/unnamed/part_002)

Its `get`, `getField`, `normalizePhone`, `normalizeExpiry`, `toWebsites`
and the formatting `.map` of `toCustomFields` are textually identical to
lastPass.js, so the embedding reuses the `LastPass` definitions; only
the line-selection of `toCustomFields` and the per-branch construction
differ. -/

namespace LastPassVariant

/-- The variant's `toCustomFields` (part_002 lines 73-94): lines are
trimmed first; the dedup key is `line.split(':')[1]` — the text between
the first and the second colon — falling back to the part before the
colon when that is missing or empty; empty-valued lines are not dropped.
(The `usedNotes.add(note)` inside the final `.map` is unobservable: the
`filter` has already run and the set is not read afterwards.) -/
def toCustomFields (extraText : String) (usedNotes : List String) : List CustomField :=
  if strTrim extraText = "" then []
  else
    (((splitLines extraText).map strTrim).filter fun line =>
      let parts := splitOnChar ':' line
      let fieldName := parts.getD 0 ""
      let lineValue := match parts.get? 1 with
        | some fv => if fv ≠ "" then strTrim fv else strTrim fieldName
        | none => strTrim fieldName
      line ≠ "" && !strStarts line "NoteType:" && !usedNotes.contains lineValue).map
      LastPass.formatLine

/-- The body of the variant's row loop (part_002 lines 114-243).  Unlike
lastPass.js it seeds the dedup set with only the `Notes` sub-field in
the credit-card and identity branches, and its credit-card `title` is
the row's `name` column (lastPass.js shadows `name` with the card
holder). -/
def rowToEntry (headerRow row : List String) : Entry :=
  let url := LastPass.getCell row "url" headerRow
  let username := LastPass.getCell row "username" headerRow
  let password := LastPass.getCell row "password" headerRow
  let extra := LastPass.getCell row "extra" headerRow
  let name := LastPass.getCell row "name" headerRow
  let folder := if LastPass.getCell row "grouping" headerRow = "" then none
    else some (LastPass.getCell row "grouping" headerRow)
  let isFavorite := LastPass.getCell row "fav" headerRow = "1"
  let websites := LastPass.toWebsites url
  if LastPass.noteTypeCreditCard extra then
    let note := LastPass.getField extra "Notes"
    let usedNotes := if note ≠ "" then [note] else []
    { type := "creditCard"
      folder := folder
      isFavorite := isFavorite
      data := {
        title := name
        name := LastPass.getField extra "Name on Card"
        number := LastPass.getField extra "Number"
        expireDate := LastPass.normalizeExpiry (LastPass.getField extra "Expiration Date")
        securityCode := LastPass.getField extra "Security Code"
        pinCode := ""
        note := note
        customFields := toCustomFields extra usedNotes } }
  else if LastPass.noteTypeAddressOrIdentity extra then
    let note := LastPass.getField extra "Notes"
    let usedNotes := if note ≠ "" then [note] else []
    { type := "identity"
      folder := folder
      isFavorite := isFavorite
      data := {
        title := name
        fullName := String.intercalate " " (LastPass.nonempties
          [LastPass.getField extra "First Name", LastPass.getField extra "Middle Name",
           LastPass.getField extra "Last Name"])
        username := LastPass.getField extra "Username"
        email := LastPass.getField extra "Email Address"
        phoneNumber := LastPass.normalizePhone (LastPass.getField extra "Mobile Phone")
        address := String.intercalate ", " (LastPass.nonempties
          [LastPass.getField extra "Address 1", LastPass.getField extra "Address 2",
           LastPass.getField extra "Address 3"])
        zip := LastPass.getField extra "Zip / Postal Code"
        city := LastPass.getField extra "City / Town"
        region := LastPass.getField extra "State"
        country := LastPass.getField extra "Country"
        note := note
        customFields := toCustomFields extra usedNotes } }
  else if LastPass.noteTypeWifiPassword extra then
    let title := LastPass.getField extra "SSID"
    let wifiPassword := LastPass.getField extra "Password"
    let note := LastPass.getField extra "Notes"
    let usedNotes := LastPass.nonempties [title, wifiPassword, note]
    { type := "wifiPassword"
      folder := folder
      isFavorite := isFavorite
      data := {
        title := LastPass.getField extra "SSID"
        password := LastPass.getField extra "Password"
        note := LastPass.getField extra "Notes"
        customFields := toCustomFields extra usedNotes } }
  else if password = "" && extra ≠ "" then
    { type := "note"
      folder := folder
      isFavorite := isFavorite
      data := {
        title := name
        note := extra
        customFields := toCustomFields extra (if extra ≠ "" then [extra] else []) } }
  else
    { type := "login"
      folder := folder
      isFavorite := isFavorite
      data := {
        title := name
        username := username
        password := password
        note := extra
        websites := websites
        customFields := toCustomFields extra (if extra ≠ "" then [extra] else []) } }

/-- The variant's `parseLastPassCsv` (part_002 lines 108-247). -/
def parseLastPassCsv : List (List String) → List Entry
  | [] => []
  | headerRow :: dataRows => dataRows.map (rowToEntry headerRow)

end LastPassVariant

/-! ## Claim C9: the two LastPass implementations -/

/-- **C9** counterexample: the two `parseLastPassCsv` implementations are
not extensionally equal.  On a credit-card row lastPass.js seeds the
dedup set with the extracted card number and drops the `Number:4111`
line, while the variant seeds only the `Notes` value and keeps the line
as a custom field. -/
theorem c9_counterexample :
    LastPass.parseLastPassCsv [["extra"], ["NoteType:Credit Card\nNumber:4111"]]
      ≠ LastPassVariant.parseLastPassCsv [["extra"], ["NoteType:Credit Card\nNumber:4111"]]
    ∧ (LastPass.parseLastPassCsv [["extra"], ["NoteType:Credit Card\nNumber:4111"]]).map
        (fun e => e.data.customFields) = [[]]
    ∧ (LastPassVariant.parseLastPassCsv [["extra"], ["NoteType:Credit Card\nNumber:4111"]]).map
        (fun e => e.data.customFields) = [[⟨"note", "Number:4111"⟩]] :=
  ⟨by decide, rfl, rfl⟩

theorem rowToEntry_eq_of_extra_empty (headerRow row : List String)
    (h : LastPass.getCell row "extra" headerRow = "") :
    LastPass.rowToEntry headerRow row = LastPassVariant.rowToEntry headerRow row := by
  rw [LastPass.rowToEntry, LastPassVariant.rowToEntry, h]
  rfl

/-- **C9** (amended): the two implementations agree on every input whose
data rows all have an empty (or absent) `extra` cell; in general they
differ — in the dedup key for lines with more than one colon, in the
treatment of empty-valued lines, and in the structured values seeded
into the dedup set by the credit-card and identity branches. -/
theorem c9_amended_agree_on_empty_extra (headerRow : List String)
    (dataRows : List (List String))
    (h : ∀ row ∈ dataRows, LastPass.getCell row "extra" headerRow = "") :
    LastPass.parseLastPassCsv (headerRow :: dataRows)
      = LastPassVariant.parseLastPassCsv (headerRow :: dataRows) := by
  rw [LastPass.parseLastPassCsv, LastPassVariant.parseLastPassCsv]
  exact List.map_congr_left fun row hrow => rowToEntry_eq_of_extra_empty _ _ (h row hrow)

/-- Witness for the amended C9 at a one-row input without an extra column. -/
theorem c9_amended_witness :
    LastPass.parseLastPassCsv [["url", "name"], ["a.com", "Site"]]
      = LastPassVariant.parseLastPassCsv [["url", "name"], ["a.com", "Site"]] :=
  c9_amended_agree_on_empty_extra ["url", "name"] [["a.com", "Site"]] (by decide)

/-! ## NordPass parser (the second document of src/src/parsers/keepass.js) -/

namespace NordPass

/-- The `[url, ...JSON.parse(additional_urls || '[]')]` idiom: `JSON.parse`
must succeed and (for the spread and the later `addHttps` mapping)
produce an array of strings; `none` models the thrown exception.
Restriction of the model: a parsed non-array (which in JavaScript throws
for non-iterables but spreads for strings) and non-string elements also
map to `none`. -/
def jsonParseStringArray (s : String) : Option (List String) :=
  match jsonParse s with
  | some (.arr xs) => xs.mapM (fun v => match v with | .str t => some t | _ => none)
  | _ => none

/-- `parseCustomFields` (keepass.js/NordPass lines 604-614): `JSON.parse`
inside try/catch; a parse failure, a non-array result (whose `.map`
throws), or a `null` element (whose destructuring throws) all yield
`[]`; elements without `label`/`value` members stringify them as
`undefined`. -/
def parseCustomFields (customFields : String) : List CustomField :=
  match jsonParse (if customFields = "" then "[]" else customFields) with
  | some (.arr xs) =>
    if xs.any (fun v => match v with | .null => true | _ => false) then []
    else xs.map (fun v =>
      ⟨"note", jsDisplayOpt (jsMemberGet v "label") ++ ": "
        ++ jsDisplayOpt (jsMemberGet v "value")⟩)
  | some _ => []
  | none => []

/-- The NordPass `normalizePhone` (lines 638-645): strip every non-digit;
empty input or no digits give `''`, otherwise `'+' + digits`. -/
def normalizePhone (str : String) : String :=
  if str = "" then ""
  else
    let digits : List Char := str.data.filter (·.isDigit)
    if digits = [] then "" else "+" ++ (⟨digits⟩ : String)

/-- The leftmost match of `/(\d{2})\/(\d{2,4})/`: two digits, a slash, then
greedily two to four digits; the regex cursor advances one character at
a time until a match starts. -/
def findExpiryAux : List Char → Option (String × String)
  | m1 :: m2 :: '/' :: rest =>
    if m1.isDigit && m2.isDigit then
      let ys := (rest.takeWhile (·.isDigit)).take 4
      if ys.length ≥ 2 then some (⟨[m1, m2]⟩, ⟨ys⟩)
      else findExpiryAux (m2 :: '/' :: rest)
    else findExpiryAux (m2 :: '/' :: rest)
  | _ :: rest => findExpiryAux rest
  | [] => none

/-- The NordPass `normalizeExpireDate` (lines 620-632): empty input gives
`''`; no regex match passes the value through; a match is rendered as
the (already two-digit) month and the last two year digits. -/
def normalizeExpireDate (str : String) : String :=
  if str = "" then ""
  else match findExpiryAux str.data with
    | none => str
    | some (month, year) => LastPass.padStart2 month ++ "/" ++ LastPass.sliceLastTwo year

/-- The body of the `for (const row of dataRows)` loop of `parseNordPassCSV`
(lines 472-595): `.ok none` models the `continue` of a `folder` row,
`.error` the exception thrown by the unguarded
`JSON.parse(additional_urls || '[]')` — note the source computes `urls`
before the `folder` check, so even folder rows throw on a malformed
blob. -/
def rowToEntry (headers row : List String) : Except String (Option Entry) :=
  let item := fun k => jsObjGet headers row k
  match jsonParseStringArray
      (if item "additional_urls" = "" then "[]" else item "additional_urls") with
  | none => .error "SyntaxError: unexpected token in JSON"
  | some extraUrls =>
    let urls := ((item "url" :: extraUrls).map addHttps).filter (· ≠ "")
    let folder := if item "folder" = "" then none else some (item "folder")
    if item "type" = "folder" then .ok none
    else if item "type" = "password" then
      .ok (some
        { type := "login"
          folder := folder
          isFavorite := false
          data := {
            title := item "name"
            username := item "username"
            password := item "password"
            note := item "note"
            websites := urls
            customFields := parseCustomFields (item "custom_fields") } })
    else if item "type" = "credit_card" then
      .ok (some
        { type := "creditCard"
          folder := folder
          isFavorite := false
          data := {
            title := item "name"
            name := item "cardholdername"
            number := item "cardnumber"
            expireDate := normalizeExpireDate (item "expirydate")
            securityCode := item "cvc"
            pinCode := item "pin"
            note := item "note"
            customFields := parseCustomFields (item "custom_fields")
              ++ (if item "zipcode" ≠ "" then [⟨"note", "Zipcode: " ++ item "zipcode"⟩]
                  else []) } })
    else if item "type" = "note" then
      .ok (some
        { type := "note"
          folder := folder
          isFavorite := false
          data := {
            title := item "name"
            note := item "note"
            customFields := parseCustomFields (item "custom_fields") } })
    else if item "type" = "identity" then
      .ok (some
        { type := "identity"
          folder := folder
          isFavorite := false
          data := {
            title := item "name"
            fullName := item "full_name"
            email := item "email"
            phoneNumber := normalizePhone (item "phone_number")
            address := String.intercalate ", "
              (LastPass.nonempties [item "address1", item "address2"])
            zip := item "zipcode"
            city := item "city"
            region := item "state"
            country := item "country"
            note := item "note"
            customFields := parseCustomFields (item "custom_fields") } })
    else
      .ok (some
        { type := "custom"
          folder := folder
          isFavorite := false
          data := {
            title := item "name"
            customFields := parseCustomFields (item "custom_fields") } })

/-- The row loop: the first thrown exception aborts the whole parse. -/
def rowsToEntries (headers : List String) : List (List String) → Except String (List Entry)
  | [] => .ok []
  | row :: rest =>
    match rowToEntry headers row with
    | .error e => .error e
    | .ok none => rowsToEntries headers rest
    | .ok (some entry) =>
      match rowsToEntries headers rest with
      | .error e => .error e
      | .ok others => .ok (entry :: others)

/-- `parseNordPassCSV` (lines 466-598), taken after the external row
reader; an input without a header row throws (`headerRow.map` on
`undefined`). -/
def parseNordPassCSV : List (List String) → Except String (List Entry)
  | [] => .error "TypeError: headerRow is undefined"
  | headerRow :: dataRows => rowsToEntries (headerRow.map strTrim) dataRows

end NordPass

/-! ## Claim C6: NordPass error degradation -/

/-- **C6** counterexample: a malformed `additional_urls` blob makes
`parseNordPassCSV` throw — the `JSON.parse(additional_urls || '[]')`
call is the one value-level parse that is not wrapped in try/catch. -/
theorem c6_counterexample :
    NordPass.parseNordPassCSV
        [["type", "name", "additional_urls"], ["password", "X", "oops"]]
      = .error "SyntaxError: unexpected token in JSON"
    ∧ jsonParse "oops" = none :=
  ⟨rfl, rfl⟩

theorem nordpass_rowToEntry_ok (headers row : List String)
    (h : NordPass.jsonParseStringArray
        (if jsObjGet headers row "additional_urls" = "" then "[]"
         else jsObjGet headers row "additional_urls") ≠ none) :
    (jsObjGet headers row "type" = "folder"
      ∧ NordPass.rowToEntry headers row = .ok none)
    ∨ (jsObjGet headers row "type" ≠ "folder"
      ∧ ∃ e, NordPass.rowToEntry headers row = .ok (some e)) := by
  rw [NordPass.rowToEntry]
  simp only []
  cases hj : NordPass.jsonParseStringArray
      (if jsObjGet headers row "additional_urls" = "" then "[]"
       else jsObjGet headers row "additional_urls") with
  | none => exact absurd hj h
  | some extraUrls =>
    dsimp only []
    by_cases ht : jsObjGet headers row "type" = "folder"
    · left
      refine ⟨ht, ?_⟩
      rw [if_pos ht]
    · right
      refine ⟨ht, ?_⟩
      rw [if_neg ht]
      split
      · exact ⟨_, rfl⟩
      · split
        · exact ⟨_, rfl⟩
        · split
          · exact ⟨_, rfl⟩
          · split
            · exact ⟨_, rfl⟩
            · exact ⟨_, rfl⟩

theorem nordpass_rowsToEntries_ok (headers : List String)
    (rows : List (List String))
    (h : ∀ row ∈ rows, NordPass.jsonParseStringArray
        (if jsObjGet headers row "additional_urls" = "" then "[]"
         else jsObjGet headers row "additional_urls") ≠ none) :
    ∃ l, NordPass.rowsToEntries headers rows = .ok l
      ∧ l.length = (rows.filter
          (fun row => jsObjGet headers row "type" ≠ "folder")).length := by
  induction rows with
  | nil => exact ⟨[], rfl, rfl⟩
  | cons row rest ih =>
    obtain ⟨l, hl, hlen⟩ := ih (fun r hr => h r (List.mem_cons_of_mem _ hr))
    rcases nordpass_rowToEntry_ok headers row (h row (List.mem_cons_self row rest)) with
      ⟨ht, he⟩ | ⟨ht, e, he⟩
    · refine ⟨l, ?_, ?_⟩
      · rw [NordPass.rowsToEntries, he, hl]
      · rw [List.filter_cons, if_neg (by simp [ht]), hlen]
    · refine ⟨e :: l, ?_, ?_⟩
      · rw [NordPass.rowsToEntries, he, hl]
      · rw [List.filter_cons, if_pos (by simp [ht])]
        simp [hlen]

/-- **C6** (amended): when every data row's `additional_urls` cell is empty
or a JSON array of strings, `parseNordPassCSV` never throws — phone,
expiry-date and `custom_fields` normalization failures always degrade to
pass-through or `[]` — and it emits exactly one entry per non-`folder`
row.  A malformed `additional_urls` blob, however, does throw
(`c6_counterexample`): that `JSON.parse` is outside every try/catch. -/
theorem c6_amended_degradation (headerRow : List String)
    (dataRows : List (List String))
    (h : ∀ row ∈ dataRows, NordPass.jsonParseStringArray
        (if jsObjGet (headerRow.map strTrim) row "additional_urls" = "" then "[]"
         else jsObjGet (headerRow.map strTrim) row "additional_urls") ≠ none) :
    ∃ l, NordPass.parseNordPassCSV (headerRow :: dataRows) = .ok l
      ∧ l.length = (dataRows.filter
          (fun row => jsObjGet (headerRow.map strTrim) row "type" ≠ "folder")).length := by
  rw [NordPass.parseNordPassCSV]
  exact nordpass_rowsToEntries_ok (headerRow.map strTrim) dataRows h

/-- Witness for the amended C6: a row whose phone, expiry date and
`custom_fields` blobs are all unparseable still yields one entry. -/
theorem c6_amended_witness :
    ∃ l, NordPass.parseNordPassCSV
        [["type", "name", "phone_number", "expirydate", "custom_fields",
          "additional_urls"],
         ["identity", "I", "no-digits-here", "13/x", "notjson", ""]]
      = .ok l
      ∧ l.length = ([["identity", "I", "no-digits-here", "13/x", "notjson", ""]].filter
          (fun row => jsObjGet (["type", "name", "phone_number", "expirydate",
            "custom_fields", "additional_urls"].map strTrim) row "type" ≠ "folder")).length :=
  c6_amended_degradation
    ["type", "name", "phone_number", "expirydate", "custom_fields", "additional_urls"]
    [["identity", "I", "no-digits-here", "13/x", "notjson", ""]]
    (by intro row hr; simp at hr; subst hr; decide)
